import Mathlib

/-!
Shallow embedding of the `routinepool` Go package (a bounded goroutine pool).

The embedding mirrors the source files `pool.go` and the worker file:
  * `Task`, `Result`, pool state (`PoolState`) follow the Go structs.
    Go `interface{}` values are modelled as `Option α` (with `none` for `nil`),
    Go `error` as `Option ε`, and a channel reference that may be `nil`
    (`Task.responseCh`) as `Option Nat`, a sink identifier.
  * `newPool`, `start`, `stop`, `addTask` model `NewPool`, `Pool.Start`,
    `Pool.Stop`, `Pool.AddTask`.  Go runtime panics (send on a closed
    channel, close of a closed channel, negative slice length, integer
    division by zero) are modelled as explicit outcome constructors or
    `Option.none`, never silently ignored.
  * `workerExec` / `workerStep` / `runTasks` model the body of the worker
    loop `worker.start`, and `dispatchLoop` models the round-robin
    selection in `Pool.dispatch` (`workerIndex := taskIndex % p.numWorkers`).
    The dispatcher's `taskIndex` is a Go `int` (64-bit here): it wraps
    two's-complement at `2^63` (`wrap64`), `%` truncates toward zero
    (`Int.tmod`), and a negative or out-of-range worker index is a slice
    index-out-of-range panic, modelled by `none`.
-/

namespace RoutinePool

/-- Go struct `Task`: index, zero-argument computation, response channel
(the channel reference may be `nil`, modelled by `Option Nat`). -/
structure Task (α ε : Type) where
  index : Int
  fn : Unit → Option α × Option ε
  responseCh : Option Nat

/-- Go struct `Result`: the task's index, the returned value and error. -/
structure Result (α ε : Type) where
  index : Int
  value : Option α
  err : Option ε
deriving DecidableEq

/-- The pool state visible to the embedded operations: the fields of the Go
`Pool` struct, with each channel represented by its buffered content and a
closed flag.  `closed = true` is the Stopped lifecycle state (as set by
`p.closed.Store(true)` in `NewPool`). -/
structure PoolState (α ε : Type) where
  numWorkers : Int
  taskCh : List (Task α ε)
  taskChCap : Int
  taskChClosed : Bool
  workers : List Nat
  closed : Bool
  shutdownChClosed : Bool
  workerShutdownClosed : Bool

/-- `NewPool(numWorkers, taskChSize)`.  `make([]*worker, numWorkers)` panics
for a negative length, modelled by `none`; otherwise the pool starts Stopped
(`closed = true`) with an empty intake queue of capacity
`max taskChSize 1` (the source coerces `taskChSize <= 0` to `1`) and one
worker per index `0 .. numWorkers-1`. -/
def newPool (α ε : Type) (numWorkers taskChSize : Int) :
    Option (PoolState α ε) :=
  if numWorkers < 0 then none
  else
    some
      { numWorkers := numWorkers
        taskCh := []
        taskChCap := if taskChSize ≤ 0 then 1 else taskChSize
        taskChClosed := false
        workers := List.range numWorkers.toNat
        closed := true
        shutdownChClosed := false
        workerShutdownClosed := false }

/-- The error message returned by `Pool.Start` when the CAS fails. -/
def alreadyRunningMsg : String := "the pool is already running"

/-- The error message returned by `Pool.Stop` when the CAS fails. -/
def alreadyStoppedMsg : String := "the pool is already closed"

/-- The error message returned by `Pool.AddTask` on a closed pool. -/
def closedPoolMsg : String := "the pool is closed"

/-- `Pool.Start`: `p.closed.CompareAndSwap(true, false)` succeeds iff the
flag currently reads Stopped; on success the flag flips to Running and the
worker and dispatcher threads are launched. -/
def start (p : PoolState α ε) : Except String (PoolState α ε) :=
  if p.closed then .ok { p with closed := false }
  else .error alreadyRunningMsg

/-- Outcome of `Pool.Stop`.  After a successful CAS the source closes
`p.taskCh`; closing an already-closed channel is a Go runtime panic, which
can happen when the pool was stopped, restarted and stopped again.  The
panic outcome carries the state at panic time (flag already flipped). -/
inductive StopOutcome (α ε : Type) where
  | alreadyStopped
  | panicCloseClosed (p : PoolState α ε)
  | stopped (p : PoolState α ε)
deriving Inhabited

/-- `Pool.Stop`: `p.closed.CompareAndSwap(false, true)` fails with the
`AlreadyStopped` error iff the flag is not Running; otherwise the flag flips
to Stopped, then the intake queue and both shutdown channels are closed and
the threads are joined. -/
def stop (p : PoolState α ε) : StopOutcome α ε :=
  if p.closed then .alreadyStopped
  else if p.taskChClosed then .panicCloseClosed { p with closed := true }
  else
    .stopped
      { p with
        closed := true
        taskChClosed := true
        shutdownChClosed := true
        workerShutdownClosed := true }

/-- Outcome of `Pool.AddTask`.  Sending on a closed channel
(`p.taskCh <- task` after `Stop` closed it) is a Go runtime panic.  Each
constructor carries the pool state as the call leaves it, so the error path
visibly leaves the intake queue untouched. -/
inductive AddTaskOutcome (α ε : Type) where
  | closedErr (p : PoolState α ε)
  | panicSendClosed (p : PoolState α ε)
  | ok (p : PoolState α ε)

/-- `Pool.AddTask(future, index, fn)`: returns the `Closed` error when the
running flag reads Stopped; otherwise builds
`Task{index, fn, responseCh: future.Result}` and sends it on the intake
queue (a panic if that channel has been closed). -/
def addTask (p : PoolState α ε) (future : Nat) (index : Int)
    (fn : Unit → Option α × Option ε) : AddTaskOutcome α ε :=
  if p.closed then .closedErr p
  else if p.taskChClosed then .panicSendClosed p
  else .ok { p with taskCh := p.taskCh ++ [⟨index, fn, some future⟩] }

/-- The body of the worker loop on receipt of a task:
`result, err := task.fn()` wrapped into a `Result` carrying `task.index`. -/
def workerExec (t : Task α ε) : Result α ε :=
  let r := t.fn ()
  { index := t.index, value := r.1, err := r.2 }

/-- One worker-loop iteration: execute the task and, when `task.responseCh`
is non-nil, write the wrapped `Result` into that sink.  The returned pair is
the performed write (sink, result); `none` means the result was discarded. -/
def workerStep (t : Task α ε) : Option (Nat × Result α ε) :=
  match t.responseCh with
  | some ch => some (ch, workerExec t)
  | none => none

/-- The writes performed when the workers run a list of received tasks to
completion (no worker fault, no shutdown race: every task received is
executed and its result delivered). -/
def runTasks (tasks : List (Task α ε)) : List (Nat × Result α ε) :=
  tasks.filterMap workerStep

/-- The results delivered into the future (sink) `f` among a list of
performed writes. -/
def resultsFor (f : Nat) (written : List (Nat × Result α ε)) :
    List (Result α ε) :=
  (written.filter fun x => decide (x.1 = f)).map Prod.snd

/-- Two's-complement wrap of a 64-bit signed integer: `taskIndex++` on a Go
`int` wraps from `2^63 - 1` to `-2^63`
(`9223372036854775808 = 2^63`, `18446744073709551616 = 2^64`). -/
def wrap64 (n : Int) : Int :=
  (n + 9223372036854775808) % 18446744073709551616 - 9223372036854775808

/-- The selection loop of `Pool.dispatch`: the task removed when the 64-bit
counter reads `taskIndex` is handed to worker
`taskIndex % numWorkers` (Go `%` truncates toward zero, `Int.tmod`), and
the counter is incremented with 64-bit wrap-around.  Two Go runtime panics
are modelled by `none`: `taskIndex % 0` (integer division by zero) and
`p.workers[workerIndex]` with a worker index outside
`0 .. numWorkers - 1`, which happens once the wrapped counter is
negative. -/
def dispatchLoop (numWorkers : Int) :
    Int → List (Task α ε) → Option (List (Int × Task α ε))
  | _, [] => some []
  | taskIndex, t :: rest =>
    if numWorkers = 0 then none
    else
      let workerIndex := Int.tmod taskIndex numWorkers
      if workerIndex < 0 ∨ numWorkers ≤ workerIndex then none
      else
        match dispatchLoop numWorkers (wrap64 (taskIndex + 1)) rest with
        | none => none
        | some l => some ((workerIndex, t) :: l)

/-- `Pool.dispatch` starting from `taskIndex = 0`. -/
def dispatch (numWorkers : Int) (tasks : List (Task α ε)) :
    Option (List (Int × Task α ε)) :=
  dispatchLoop numWorkers 0 tasks

/-- One atomic transition of the pool state: a successful `Start`, a normal
`Stop`, a successful `AddTask`, or the dispatcher removing the head of the
intake queue. -/
inductive Step : PoolState α ε → PoolState α ε → Prop where
  | start (p p' : PoolState α ε) : start p = .ok p' → Step p p'
  | stop (p p' : PoolState α ε) : stop p = .stopped p' → Step p p'
  | add (p p' : PoolState α ε) (future : Nat) (index : Int)
      (fn : Unit → Option α × Option ε) :
      addTask p future index fn = .ok p' → Step p p'
  | take (p : PoolState α ε) (t : Task α ε) (rest : List (Task α ε)) :
      p.taskCh = t :: rest → Step p { p with taskCh := rest }

/-- Reachability: zero or more pool transitions. -/
def Reach (p q : PoolState α ε) : Prop :=
  Relation.ReflTransGen Step p q

/-- The round-robin assignment as a function of the removal order and the
worker count: the task removed at counter value `k` is paired with worker
index `k % W`.  Used to state that `dispatch` computes exactly this
deterministic assignment. -/
def roundRobinFrom (W : Int) : Nat → List (Task α ε) → List (Int × Task α ε)
  | _, [] => []
  | k, t :: rest => ((k : Int) % W, t) :: roundRobinFrom W (k + 1) rest

/-- Round-robin assignment starting from counter value `0`. -/
def roundRobin (W : Int) (tasks : List (Task α ε)) : List (Int × Task α ε) :=
  roundRobinFrom W 0 tasks

/-- The pool state `NewPool(w, c)` builds for `w ≥ 0`: Stopped flag, empty
intake queue of capacity `max c 1`, workers `0 .. w-1`, open channels. -/
def freshPool (w c : Int) : PoolState α ε :=
  { numWorkers := w
    taskCh := []
    taskChCap := if c ≤ 0 then 1 else c
    taskChClosed := false
    workers := List.range w.toNat
    closed := true
    shutdownChClosed := false
    workerShutdownClosed := false }

/-! ### Concrete fixtures used by witnesses and counterexamples -/

/-- A freshly constructed one-worker pool (state of `NewPool(1, 1)`). -/
def poolA : PoolState Nat String :=
  { numWorkers := 1
    taskCh := []
    taskChCap := 1
    taskChClosed := false
    workers := [0]
    closed := true
    shutdownChClosed := false
    workerShutdownClosed := false }

/-- `poolA` after a successful `Start`. -/
def poolA1 : PoolState Nat String := { poolA with closed := false }

/-- `poolA1` after a successful `Stop`: flag Stopped, every channel closed. -/
def poolA2 : PoolState Nat String :=
  { poolA1 with
    closed := true
    taskChClosed := true
    shutdownChClosed := true
    workerShutdownClosed := true }

/-- `poolA2` after a second successful `Start`: flag Running again, but the
intake queue is still closed. -/
def poolA3 : PoolState Nat String := { poolA2 with closed := false }

/-- A concrete task targeting sink 2. -/
def taskA : Task Nat String :=
  { index := 5, fn := fun _ => (some 3, none), responseCh := some 2 }

/-- A concrete task whose computation fails, targeting sink 0. -/
def taskErr : Task Nat String :=
  { index := 1, fn := fun _ => (none, some "boom"), responseCh := some 0 }

/-- A concrete task whose computation returns both a value and an error,
targeting sink 0. -/
def taskBoth : Task Nat String :=
  { index := 4, fn := fun _ => (some 7, some "boom"), responseCh := some 0 }

/-- A concrete task with a nil response channel. -/
def taskNil : Task Nat String :=
  { index := 9, fn := fun _ => (some 1, none), responseCh := none }

/-- A batch of three tasks on sink 0 (indices 0, 1, 2) interleaved with one
task of a second batch on sink 1. -/
def batchTasks : List (Task Nat String) :=
  [ { index := 0, fn := fun _ => (some 10, none), responseCh := some 0 }
  , { index := 7, fn := fun _ => (some 99, none), responseCh := some 1 }
  , { index := 1, fn := fun _ => (none, some "e1"), responseCh := some 0 }
  , { index := 2, fn := fun _ => (some 12, none), responseCh := some 0 } ]

/-! ### Helper lemmas -/

/-- Every pool transition preserves closedness of the intake queue: no
operation ever recreates or reopens `taskCh`. -/
theorem step_preserves_taskChClosed {p q : PoolState α ε} (h : Step p q)
    (hc : p.taskChClosed = true) : q.taskChClosed = true := by
  cases h with
  | start p' h =>
    unfold RoutinePool.start at h
    by_cases hcl : p.closed <;> simp [hcl] at h
    subst h; exact hc
  | stop p' h =>
    unfold RoutinePool.stop at h
    by_cases hcl : p.closed <;> simp [hcl] at h
    by_cases htc : p.taskChClosed <;> simp [htc] at h
    subst h
    rfl
  | add p' future index fn h =>
    unfold addTask at h
    by_cases hcl : p.closed <;> simp [hcl] at h
    by_cases htc : p.taskChClosed <;> simp [htc] at h
    exact absurd hc htc
  | take t rest h => exact hc

/-- The intake queue stays closed along any sequence of transitions. -/
theorem reach_preserves_taskChClosed {p q : PoolState α ε} (h : Reach p q)
    (hc : p.taskChClosed = true) : q.taskChClosed = true := by
  induction h with
  | refl => exact hc
  | tail _ hstep ih => exact step_preserves_taskChClosed hstep ih

/-- The results delivered into sink `f` by a run are exactly the executions
of the tasks that target `f`, in order. -/
theorem resultsFor_runTasks (f : Nat) (tasks : List (Task α ε)) :
    resultsFor f (runTasks tasks)
      = (tasks.filter fun t => decide (t.responseCh = some f)).map
          workerExec := by
  induction tasks with
  | nil => rfl
  | cons t rest ih =>
    by_cases hch : t.responseCh = some f
    · simp only [runTasks, resultsFor, List.filterMap_cons, workerStep, hch,
        List.filter_cons, decide_eq_true_eq] at ih ⊢
      simp [hch, ih, resultsFor, runTasks]
    · match hc : t.responseCh with
      | none =>
        simp only [runTasks, resultsFor, List.filterMap_cons, workerStep,
          hc, List.filter_cons] at ih ⊢
        simpa [hc] using ih
      | some ch =>
        have hne : ¬ ch = f := by
          intro hcontra; exact hch (by rw [hc, hcontra])
        simp only [runTasks, resultsFor, List.filterMap_cons, workerStep,
          hc, List.filter_cons] at ih ⊢
        simp [hc, hne, ih, resultsFor, runTasks]

/-- The index of an executed result is the task's index. -/
theorem workerExec_index (t : Task α ε) : (workerExec t).index = t.index :=
  rfl

/-- A 64-bit value in range is unchanged by the wrap. -/
theorem wrap64_eq_self {n : Int} (h1 : -9223372036854775808 ≤ n)
    (h2 : n < 9223372036854775808) : wrap64 n = n := by
  unfold wrap64
  omega

/-- Unfolding of the dispatcher loop at a nonnegative counter and a
positive worker count: the hand-off succeeds and the counter advances. -/
theorem dispatchLoop_cons_pos (W : Int) (hW : 1 ≤ W) (i : Int) (hi : 0 ≤ i)
    (t : Task α ε) (rest : List (Task α ε)) :
    dispatchLoop W i (t :: rest)
      = (dispatchLoop W (wrap64 (i + 1)) rest).map
          (fun l => (Int.tmod i W, t) :: l) := by
  have hW0 : ¬ W = 0 := by omega
  have hidx : ¬ (Int.tmod i W < 0 ∨ W ≤ Int.tmod i W) := by
    push_neg
    exact ⟨Int.tmod_nonneg W hi, Int.tmod_lt_of_pos i (by omega)⟩
  simp only [dispatchLoop, hW0, if_false, hidx]
  cases dispatchLoop W (wrap64 (i + 1)) rest <;> rfl

/-- For a nonzero worker count and counters that stay inside the 64-bit
range, the dispatcher loop computes exactly the round-robin assignment
function. -/
theorem dispatchLoop_eq_roundRobinFrom (W : Int) (hW : 1 ≤ W)
    (tasks : List (Task α ε)) (i : Nat)
    (hin : (i : Int) + tasks.length ≤ 9223372036854775808) :
    dispatchLoop W (i : Int) tasks = some (roundRobinFrom W i tasks) := by
  induction tasks generalizing i with
  | nil => rfl
  | cons t rest ih =>
    rw [dispatchLoop_cons_pos W hW (i : Int) (by omega) t rest]
    have htm : Int.tmod (i : Int) W = (i : Int) % W :=
      Int.tmod_eq_emod (by omega) (by omega)
    cases rest with
    | nil => simp [dispatchLoop, roundRobinFrom, htm]
    | cons t2 rest2 =>
      have hlen : ((i : Int) + 1) + (t2 :: rest2).length
          ≤ 9223372036854775808 := by
        simp only [List.length_cons] at hin ⊢
        push_cast at hin ⊢
        omega
      have hw : wrap64 ((i : Int) + 1) = ((i + 1 : Nat) : Int) := by
        rw [wrap64_eq_self (by omega) (by simp at hlen; omega)]
        push_cast
        ring
      rw [hw, ih (i + 1) (by push_cast at hlen ⊢; omega)]
      simp [roundRobinFrom, htm]

/-- Pushing the dispatcher through an in-range run of identical tasks: the
whole run panics exactly when the continuation at the advanced (possibly
wrapped) counter panics. -/
theorem dispatchLoop_replicate_none (W : Int) (hW : 1 ≤ W) (t : Task α ε)
    (l2 : List (Task α ε)) (n : Nat) (i : Int) (hi : 0 ≤ i)
    (hin : i + n ≤ 9223372036854775808)
    (hlt : i < 9223372036854775808) :
    dispatchLoop W i (List.replicate n t ++ l2) = none
      ↔ dispatchLoop W (wrap64 (i + n)) l2 = none := by
  induction n generalizing i with
  | zero =>
    rw [List.replicate_zero, List.nil_append]
    have hw : wrap64 (i + (0 : Nat)) = i := by
      rw [show i + ((0 : Nat) : Int) = i by push_cast; ring]
      exact wrap64_eq_self (by omega) hlt
    rw [hw]
  | succ n ih =>
    rw [List.replicate_succ, List.cons_append,
      dispatchLoop_cons_pos W hW i hi t _]
    rw [Option.map_eq_none']
    cases n with
    | zero =>
      rw [List.replicate_zero, List.nil_append]
      rw [show i + ((0 + 1 : Nat) : Int) = i + 1 by push_cast; ring]
    | succ m =>
      have hlt2 : i + 1 < 9223372036854775808 := by
        push_cast at hin
        omega
      have hw : wrap64 (i + 1) = i + 1 :=
        wrap64_eq_self (by omega) hlt2
      rw [hw, ih (i + 1) (by omega) (by push_cast at hin ⊢; omega) hlt2,
        show (i + 1) + ((m + 1 : Nat) : Int) = i + ((m + 1 + 1 : Nat) : Int)
          by push_cast; ring]

/-- Length of the round-robin assignment. -/
theorem roundRobinFrom_length (W : Int) (i : Nat) (tasks : List (Task α ε)) :
    (roundRobinFrom W i tasks).length = tasks.length := by
  induction tasks generalizing i with
  | nil => rfl
  | cons t rest ih => simp [roundRobinFrom, ih]

/-- The `k`-th entry of the round-robin assignment starting at counter `i`
pairs worker `(i + k) % W` with the `k`-th task. -/
theorem roundRobinFrom_get (W : Int) (i : Nat) (tasks : List (Task α ε))
    (k : Nat) (hl : k < (roundRobinFrom W i tasks).length)
    (hk : k < tasks.length) :
    (roundRobinFrom W i tasks).get ⟨k, hl⟩
      = (((i + k : Nat) : Int) % W, tasks.get ⟨k, hk⟩) := by
  induction tasks generalizing i k with
  | nil => exact absurd hk (by simp)
  | cons t rest ih =>
    match k with
    | 0 => simp [roundRobinFrom]
    | Nat.succ k =>
      have hl2 : k < (roundRobinFrom W (i + 1) rest).length := by
        simpa [roundRobinFrom] using hl
      have hk2 : k < rest.length := by simpa using hk
      have := ih (i + 1) k hl2 hk2
      simpa [roundRobinFrom, Nat.add_assoc, Nat.add_comm 1 k] using this

/-! ### Claim theorems -/

/-- C1: every Result a Worker writes into a Task's target sink carries
exactly that Task's index — for every task, every computation and every
sink, hence also across concurrent batches sharing the pool, since the
statement is unconditional in the task. -/
theorem C1_result_index (t : Task α ε) (f : Nat) (r : Result α ε)
    (h : workerStep t = some (f, r)) :
    r.index = t.index ∧ t.responseCh = some f := by
  cases hc : t.responseCh with
  | none => simp [workerStep, hc] at h
  | some ch =>
    simp only [workerStep, hc, Option.some.injEq, Prod.mk.injEq] at h
    obtain ⟨h1, h2⟩ := h
    subst h2
    exact ⟨rfl, by simp [hc, h1]⟩

/-- Witness for C1 at a concrete task. -/
theorem C1_result_index_witness :
    (workerExec taskA).index = taskA.index ∧ taskA.responseCh = some 2 :=
  C1_result_index taskA 2 (workerExec taskA) rfl

/-- C2: running any submitted task sequence to completion (no worker fault,
no shutdown race), the results delivered into future `f` are exactly one
per task handed over that targets `f`, carrying the submitted indices; if
that batch has `N` tasks with distinct indices, exactly `N` results arrive,
with `N` distinct indices, even when tasks of other futures interleave. -/
theorem C2_batch_complete (tasks : List (Task α ε)) (f : Nat) (N : Nat)
    (hN : (tasks.filter fun t => decide (t.responseCh = some f)).length = N)
    (hnodup : ((tasks.filter fun t => decide (t.responseCh = some f)).map
        Task.index).Nodup) :
    (resultsFor f (runTasks tasks)).length = N ∧
    (resultsFor f (runTasks tasks)).map Result.index
      = (tasks.filter fun t => decide (t.responseCh = some f)).map
          Task.index ∧
    ((resultsFor f (runTasks tasks)).map Result.index).Nodup := by
  have hmap : (resultsFor f (runTasks tasks)).map Result.index
      = (tasks.filter fun t => decide (t.responseCh = some f)).map
          Task.index := by
    rw [resultsFor_runTasks, List.map_map]
    exact List.map_congr_left fun t _ => rfl
  refine ⟨?_, hmap, ?_⟩
  · rw [← hN, resultsFor_runTasks, List.length_map]
  · rw [hmap]; exact hnodup

/-- Witness for C2: a batch of three tasks on future 0 interleaved with a
task of another batch on future 1. -/
theorem C2_batch_complete_witness :
    (resultsFor 0 (runTasks batchTasks)).length = 3 ∧
    (resultsFor 0 (runTasks batchTasks)).map Result.index
      = (batchTasks.filter fun t => decide (t.responseCh = some 0)).map
          Task.index ∧
    ((resultsFor 0 (runTasks batchTasks)).map Result.index).Nodup :=
  C2_batch_complete batchTasks 0 3 (by decide) (by decide)

/-- C3 (amended): Submit returns the Closed error and leaves the intake
queue untouched when the flag reads Stopped; when the flag reads Running
and the intake queue has not been closed by an earlier Stop, it enqueues a
Task built from the given future, index and computation; and every Submit
immediately after a successful Stop returns Closed. -/
theorem C3_submit (p : PoolState α ε) (fu : Nat) (i : Int)
    (fn : Unit → Option α × Option ε) :
    (p.closed = true → addTask p fu i fn = .closedErr p) ∧
    (p.closed = false → p.taskChClosed = false →
      addTask p fu i fn
        = .ok { p with taskCh := p.taskCh ++ [⟨i, fn, some fu⟩] }) ∧
    (∀ q, stop p = .stopped q → addTask q fu i fn = .closedErr q) := by
  refine ⟨fun hc => by simp [addTask, hc],
    fun hc htc => by simp [addTask, hc, htc], fun q hq => ?_⟩
  unfold stop at hq
  by_cases hc : p.closed <;> simp [hc] at hq
  by_cases htc : p.taskChClosed <;> simp [htc] at hq
  subst hq
  simp [addTask]

/-- Witness for C3 at concrete pool states. -/
theorem C3_submit_witness :
    addTask poolA 0 7 (fun _ => (some 1, none)) = .closedErr poolA ∧
    addTask poolA1 0 7 (fun _ => (some 1, none))
      = .ok { poolA1 with
              taskCh := [⟨7, fun _ => (some 1, none), some 0⟩] } ∧
    addTask poolA2 0 7 (fun _ => (some 1, none)) = .closedErr poolA2 :=
  ⟨(C3_submit poolA 0 7 fun _ => (some 1, none)).1 rfl,
   (C3_submit poolA1 0 7 fun _ => (some 1, none)).2.1 rfl rfl,
   (C3_submit poolA1 0 7 fun _ => (some 1, none)).2.2 poolA2 rfl⟩

/-- C3 counterexample: after Stop followed by a second successful Start,
the flag reads Running, yet Submit does not enqueue anything — it panics
sending on the closed intake queue. -/
theorem C3_submit_counterexample :
    RoutinePool.start poolA = .ok poolA1 ∧
    stop poolA1 = .stopped poolA2 ∧
    RoutinePool.start poolA2 = .ok poolA3 ∧
    poolA3.closed = false ∧
    addTask poolA3 0 0 (fun _ => (none, none)) = .panicSendClosed poolA3 :=
  ⟨rfl, rfl, rfl, rfl, rfl⟩

/-- C4: Start returns AlreadyRunning iff the flag is not Stopped and
otherwise flips it to Running and returns success; Stop returns
AlreadyStopped iff the flag is not Running and otherwise flips it to
Stopped; hence a second Start without intervening Stop returns
AlreadyRunning, and a second Stop returns AlreadyStopped. -/
theorem C4_lifecycle (p : PoolState α ε) :
    (RoutinePool.start p = .error alreadyRunningMsg ↔ p.closed = false) ∧
    (p.closed = true →
      RoutinePool.start p = .ok { p with closed := false }) ∧
    (stop p = .alreadyStopped ↔ p.closed = true) ∧
    (p.closed = false → ∃ q, q.closed = true ∧
      (stop p = .stopped q ∨ stop p = .panicCloseClosed q)) ∧
    (∀ q, RoutinePool.start p = .ok q →
      RoutinePool.start q = .error alreadyRunningMsg) ∧
    (∀ q, stop p = .stopped q → stop q = .alreadyStopped) := by
  constructor
  · by_cases hc : p.closed <;> simp [start, hc]
  constructor
  · intro hc; simp [start, hc]
  constructor
  · by_cases hc : p.closed
    · simp [stop, hc]
    · by_cases htc : p.taskChClosed <;> simp [stop, hc, htc]
  constructor
  · intro hc
    by_cases htc : p.taskChClosed
    · exact ⟨{ p with closed := true }, rfl, Or.inr (by simp [stop, hc, htc])⟩
    · exact ⟨{ p with closed := true, taskChClosed := true, shutdownChClosed := true, workerShutdownClosed := true }, rfl, Or.inl (by simp [stop, hc, htc])⟩
  constructor
  · intro q hq
    by_cases hc : p.closed <;> simp [start, hc] at hq
    subst hq
    simp [start]
  · intro q hq
    by_cases hc : p.closed <;> simp [stop, hc] at hq
    by_cases htc : p.taskChClosed <;> simp [htc] at hq
    subst hq
    simp [stop]

/-- Witness for C4 at a concrete pool. -/
theorem C4_lifecycle_witness :
    RoutinePool.start poolA = .ok poolA1 ∧
    RoutinePool.start poolA1 = .error alreadyRunningMsg ∧
    stop poolA = .alreadyStopped :=
  ⟨(C4_lifecycle poolA).2.1 rfl,
   (C4_lifecycle poolA).2.2.2.2.1 poolA1 ((C4_lifecycle poolA).2.1 rfl),
   (C4_lifecycle poolA).2.2.1.mpr rfl⟩

/-- C5 (amended): for every worker count `W ≥ 1` and every sequence of at
most `2^63` tasks removed from the intake queue (before the dispatcher's
64-bit counter overflows), the dispatcher computes exactly the
deterministic round-robin assignment: the `k`-th task removed (counting
from 0) is handed to worker `k % W`, the counter incrementing after each
hand-off. -/
theorem C5_round_robin (W : Int) (hW : 1 ≤ W) (tasks : List (Task α ε))
    (hlen : (tasks.length : Int) ≤ 9223372036854775808) :
    dispatch W tasks = some (roundRobin W tasks) ∧
    (roundRobin W tasks).length = tasks.length ∧
    ∀ k (hl : k < (roundRobin W tasks).length) (hk : k < tasks.length),
      (roundRobin W tasks).get ⟨k, hl⟩
        = ((k : Int) % W, tasks.get ⟨k, hk⟩) := by
  refine ⟨?_, roundRobinFrom_length W 0 tasks, fun k hl hk => ?_⟩
  · have h := dispatchLoop_eq_roundRobinFrom W hW tasks 0 (by push_cast; omega)
    simpa [dispatch, roundRobin] using h
  · simpa using roundRobinFrom_get W 0 tasks k hl hk

/-- Witness for C5: three workers, a concrete four-task sequence. -/
theorem C5_round_robin_witness :
    dispatch 3 batchTasks = some (roundRobin 3 batchTasks) ∧
    (roundRobin (3 : Int) batchTasks).length = batchTasks.length :=
  have h := C5_round_robin 3 (by decide) batchTasks (by decide)
  ⟨h.1, h.2.1⟩

/-- C5 counterexample: on the `2^63`-th hand-off the dispatcher's counter
has wrapped to `-2^63`, `taskIndex % 3 = -2`, and indexing the worker
slice panics — so a sequence of `2^63 + 1` tasks is not fully assigned
round-robin as the claim states for every sequence. -/
theorem C5_counterexample :
    dispatch 3 (List.replicate (2 ^ 63 + 1) taskA) = none := by
  have hrep : List.replicate (2 ^ 63 + 1) taskA
      = List.replicate (2 ^ 63) taskA ++ [taskA] :=
    List.replicate_succ' (2 ^ 63) taskA
  have h0 : dispatch (3 : Int) (List.replicate (2 ^ 63 + 1) taskA)
      = dispatchLoop 3 0 (List.replicate (2 ^ 63 + 1) taskA) := rfl
  rw [h0, hrep]
  rw [dispatchLoop_replicate_none 3 (by norm_num) taskA [taskA] (2 ^ 63) 0
    (by norm_num) (by push_cast) (by norm_num)]
  have hc : wrap64 ((0 : Int) + ((2 ^ 63 : Nat) : Int))
      = -9223372036854775808 := by
    unfold wrap64
    norm_num
  rw [hc]
  rfl

/-- C6 (amended): the pool never inspects or alters a computation's
outcome: when the computation returns an error, the Result carries that
error verbatim together with whatever value component the computation
returned alongside it (in particular no value when the computation returned
none). -/
theorem C6_error_verbatim (t : Task α ε) (v : Option α) (e : ε)
    (h : t.fn () = (v, some e)) :
    (workerExec t).index = t.index ∧ (workerExec t).err = some e ∧
    (workerExec t).value = v := by
  simp [workerExec, h]

/-- Witness for C6: a failing computation returning no value. -/
theorem C6_error_verbatim_witness :
    (workerExec taskErr).index = taskErr.index ∧
    (workerExec taskErr).err = some "boom" ∧
    (workerExec taskErr).value = none :=
  C6_error_verbatim taskErr none "boom" rfl

/-- C6 counterexample: a computation that returns a value alongside its
error; the Result carries the error verbatim but also carries that value,
not "no value" as the claim states. -/
theorem C6_counterexample :
    (workerExec taskBoth).err = some "boom" ∧
    (workerExec taskBoth).value = some 7 ∧
    ¬ (workerExec taskBoth).value = none :=
  ⟨rfl, rfl, fun h => Option.noConfusion h⟩

/-- C7 (amended): for every workerCount ≥ 0 and every intakeQueueCapacity,
NewPool returns an unstarted pool (flag Stopped, nothing running) holding
exactly workerCount workers and an empty intake queue whose capacity is the
requested one when at least 1 and is 1 otherwise. -/
theorem C7_construct (α ε : Type) (w c : Int) (hw : 0 ≤ w) :
    newPool α ε w c = some (freshPool w c) ∧
    (freshPool w c : PoolState α ε).closed = true ∧
    (freshPool w c : PoolState α ε).taskCh = [] ∧
    (((freshPool w c : PoolState α ε).workers.length : Int)) = w ∧
    (freshPool w c : PoolState α ε).numWorkers = w ∧
    (1 ≤ c → (freshPool w c : PoolState α ε).taskChCap = c) ∧
    (c < 1 → (freshPool w c : PoolState α ε).taskChCap = 1) := by
  have hnl : ¬ w < 0 := by omega
  refine ⟨by simp [newPool, freshPool, hnl], rfl, rfl, ?_, rfl, ?_, ?_⟩
  · simp [freshPool, Int.toNat_of_nonneg hw]
  · intro hc
    have hcle : ¬ c ≤ 0 := by omega
    simp [freshPool, hcle]
  · intro hc
    have hcle : c ≤ 0 := by omega
    simp [freshPool, hcle]

/-- Witness for C7 at the spec's example sizes (3 workers, capacity 10). -/
theorem C7_construct_witness :
    newPool Nat String 3 10 = some (freshPool 3 10) ∧
    (freshPool 3 10 : PoolState Nat String).closed = true ∧
    (freshPool 3 10 : PoolState Nat String).taskCh = [] ∧
    (((freshPool 3 10 : PoolState Nat String).workers.length : Int)) = 3 ∧
    (freshPool 3 10 : PoolState Nat String).numWorkers = 3 ∧
    ((1 : Int) ≤ 10 →
      (freshPool 3 10 : PoolState Nat String).taskChCap = 10) ∧
    ((10 : Int) < 1 →
      (freshPool 3 10 : PoolState Nat String).taskChCap = 1) :=
  C7_construct Nat String 3 10 (by decide)

/-- C7 counterexample: for a negative workerCount, NewPool does not return
a pool at all — `make([]*worker, -1)` panics. -/
theorem C7_counterexample : newPool Nat String (-1) 5 = none := rfl

/-- C8: on each received task the worker executes the computation, wraps
the outcome into a Result carrying the task's index, writes it into the
target sink iff the sink reference is non-nil (a nil sink discards the
result without fault), and continues with the remaining tasks either
way — in particular regardless of whether the computation errored. -/
theorem C8_worker_loop (t : Task α ε) (rest : List (Task α ε)) :
    (∀ f, t.responseCh = some f →
      runTasks (t :: rest) = (f, workerExec t) :: runTasks rest ∧
      (workerExec t).index = t.index) ∧
    (t.responseCh = none → runTasks (t :: rest) = runTasks rest) := by
  constructor
  · intro f hf
    exact ⟨by simp [runTasks, List.filterMap_cons, workerStep, hf], rfl⟩
  · intro hf
    simp [runTasks, List.filterMap_cons, workerStep, hf]

/-- Witness for C8: a failing task is delivered and the loop continues;
a nil-sink task is discarded and the loop continues. -/
theorem C8_worker_loop_witness :
    (runTasks [taskErr, taskA] = (0, workerExec taskErr) :: runTasks [taskA] ∧
      (workerExec taskErr).index = taskErr.index) ∧
    runTasks [taskNil, taskA] = runTasks [taskA] :=
  ⟨(C8_worker_loop taskErr [taskA]).1 0 rfl,
   (C8_worker_loop taskNil [taskA]).2 rfl⟩

/-- C9: NewPool never validates workerCount: with workerCount 0 both
construction and Start succeed, the dispatcher only panics (taskIndex mod 0)
once a first task is removed from the intake queue — an empty queue
dispatches without fault — while a negative workerCount already panics in
construction allocating the worker slice. -/
theorem C9_worker_count_unchecked (α ε : Type) (c w : Int) (hw : w < 0)
    (t : Task α ε) (rest : List (Task α ε)) :
    newPool α ε w c = none ∧
    newPool α ε 0 c = some (freshPool 0 c) ∧
    (freshPool 0 c : PoolState α ε).numWorkers = 0 ∧
    (freshPool 0 c : PoolState α ε).workers = [] ∧
    RoutinePool.start (freshPool 0 c : PoolState α ε)
      = .ok { (freshPool 0 c : PoolState α ε) with closed := false } ∧
    dispatch (0 : Int) (t :: rest) = none ∧
    dispatch (0 : Int) ([] : List (Task α ε)) = some [] := by
  refine ⟨by simp [newPool, hw], by simp [newPool, freshPool], rfl, ?_,
    rfl, rfl, rfl⟩
  simp [freshPool]

/-- Witness for C9 at workerCount -1 and 0, capacity 5. -/
theorem C9_worker_count_unchecked_witness :
    newPool Nat String (-1) 5 = none ∧
    newPool Nat String 0 5 = some (freshPool 0 5) ∧
    (freshPool 0 5 : PoolState Nat String).numWorkers = 0 ∧
    (freshPool 0 5 : PoolState Nat String).workers = [] ∧
    RoutinePool.start (freshPool 0 5 : PoolState Nat String)
      = .ok { (freshPool 0 5 : PoolState Nat String) with closed := false } ∧
    dispatch (0 : Int) (taskA :: []) = none ∧
    dispatch (0 : Int) ([] : List (Task Nat String)) = some [] :=
  C9_worker_count_unchecked Nat String 5 (-1) (by decide) taskA []

/-- C10: the pool is not restartable: a successful Stop leaves the intake
queue closed and no reachable later state reopens it; a subsequent Start
nevertheless succeeds (the CAS Stopped-to-Running wins), after which Submit
panics sending on the closed intake queue. -/
theorem C10_not_restartable (p q : PoolState α ε) (fu : Nat) (i : Int)
    (fn : Unit → Option α × Option ε) (h : stop p = .stopped q) :
    q.taskChClosed = true ∧
    RoutinePool.start q = .ok { q with closed := false } ∧
    addTask { q with closed := false } fu i fn
      = .panicSendClosed { q with closed := false } ∧
    ∀ r, Reach q r → r.taskChClosed = true := by
  unfold stop at h
  by_cases hc : p.closed <;> simp [hc] at h
  by_cases htc : p.taskChClosed <;> simp [htc] at h
  subst h
  exact ⟨rfl, rfl, rfl, fun r hr => reach_preserves_taskChClosed hr rfl⟩

/-- Witness for C10 at a concrete stop-start-submit chain. -/
theorem C10_not_restartable_witness :
    poolA2.taskChClosed = true ∧
    RoutinePool.start poolA2 = .ok { poolA2 with closed := false } ∧
    addTask { poolA2 with closed := false } 0 0 (fun _ => (none, none))
      = .panicSendClosed { poolA2 with closed := false } :=
  have h :=
    C10_not_restartable poolA1 poolA2 0 0 (fun _ => (none, none)) rfl
  ⟨h.1, h.2.1, h.2.2.1⟩

end RoutinePool
